import Mathlib

/-!
Verification of the FLAME mesh routing table
(`src/mesh/model/flame/flame-rtable.h`).

The checkout contains only the header declaring `FlameRtable`: the sizes of
the fields, the constants `INTERFACE_ANY` and `MAX_COST`, the `LookupResult`
value type with its default (invalid) constructor, and the private `Route`
entry together with the `m_lifetime` / `m_routes` state.  The bodies of
`AddPath` and `Lookup` (flame-rtable.cc) are not part of the checkout, so the
update and expiry policy is modelled from the specification document
(sections 3 and 4.1), as noted on each modelled definition.

Machine integers are modelled as `Nat`; the widths declared in the header
(uint8 cost, uint16 sequence number, uint32 interface, 48-bit address) enter
as range hypotheses where a claim quantifies over representable values.
Time (`ns3::Time`) is modelled as a `Nat` supplied by the caller at each
operation, as the specification prescribes.
-/

/-- 48-bit hardware address (`ns3::Mac48Address`), used by the table purely
as an opaque key supporting equality. -/
abbrev Mac48Address := Nat

/-- `Mac48Address::GetBroadcast()`: the all-ones address ff:ff:ff:ff:ff:ff. -/
def Mac48Address.broadcast : Mac48Address := 0xffffffffffff

/-- `FlameRtable::INTERFACE_ANY = 0xffffffff` (header line 31). -/
def INTERFACE_ANY : Nat := 0xffffffff

/-- `FlameRtable::MAX_COST = 0xff` (header line 33). -/
def MAX_COST : Nat := 0xff

/-- `FlameRtable::LookupResult` (header lines 36-73): retransmitter address,
interface index (uint32), cost (uint8), sequence number (uint16). -/
structure LookupResult where
  retransmitter : Mac48Address
  ifIndex : Nat
  cost : Nat
  seqnum : Nat
deriving DecidableEq, Repr

/-- The default-constructed `LookupResult` (header lines 51-60): broadcast
retransmitter, `INTERFACE_ANY`, `MAX_COST`, sequence number 0.  This is the
distinguished invalid sentinel meaning "no usable route". -/
def LookupResult.invalid : LookupResult :=
  ⟨Mac48Address.broadcast, INTERFACE_ANY, MAX_COST, 0⟩

/-- `FlameRtable::Route` (header lines 114-121): the private routing table
entry, with expiration timestamp `whenExpire`. -/
structure Route where
  retransmitter : Mac48Address
  interface : Nat
  cost : Nat
  whenExpire : Nat
  seqnum : Nat
deriving DecidableEq, Repr

/-- The state of a `FlameRtable` (header lines 123-126): the configured
lifetime and the destination-to-entry map `m_routes`.  The `std::map` is
modelled as a function to `Option Route`: at most one entry per key. -/
structure FlameRtable where
  m_lifetime : Nat
  m_routes : Mac48Address → Option Route

/-- Modelled from the spec: the body of `FlameRtable::AddPath`
(flame-rtable.cc) is missing from the checkout; only its declaration
(header lines 100-104) is present.  Update policy per spec section 4.1:
insert when absent; a strictly higher sequence number always replaces,
regardless of cost; for equal sequence numbers a strictly lower cost
replaces, otherwise the stored path is kept and only its expiration is
refreshed; a strictly lower sequence number is ignored entirely.  Every
successful update sets expiration to now plus the configured lifetime.
`now` is the caller-supplied current time (spec section 5). -/
def FlameRtable.AddPath (s : FlameRtable) (now : Nat)
    (destination retransmitter : Mac48Address)
    (interface cost seqnum : Nat) : FlameRtable :=
  match s.m_routes destination with
  | none =>
      ⟨s.m_lifetime, fun d =>
        if d = destination then
          some ⟨retransmitter, interface, cost, now + s.m_lifetime, seqnum⟩
        else s.m_routes d⟩
  | some r =>
      if r.seqnum < seqnum then
        ⟨s.m_lifetime, fun d =>
          if d = destination then
            some ⟨retransmitter, interface, cost, now + s.m_lifetime, seqnum⟩
          else s.m_routes d⟩
      else if seqnum = r.seqnum then
        if cost < r.cost then
          ⟨s.m_lifetime, fun d =>
            if d = destination then
              some ⟨retransmitter, interface, cost, now + s.m_lifetime, seqnum⟩
            else s.m_routes d⟩
        else
          ⟨s.m_lifetime, fun d =>
            if d = destination then
              some ⟨r.retransmitter, r.interface, r.cost, now + s.m_lifetime,
                r.seqnum⟩
            else s.m_routes d⟩
      else s

/-- Modelled from the spec: the body of `FlameRtable::Lookup`
(flame-rtable.cc) is missing from the checkout; only its declaration
(header line 110, "return Broadcast if not found") is present.  Per spec
section 4.1: return the invalid sentinel when no entry exists or the stored
entry's expiration has passed (spec section 3: the entry is logically dead
once now exceeds its expiration), otherwise a copy of the stored fields.
This variant has no side effect on the table. -/
def FlameRtable.Lookup (s : FlameRtable) (now : Nat)
    (destination : Mac48Address) : LookupResult :=
  match s.m_routes destination with
  | none => LookupResult.invalid
  | some r =>
      if r.whenExpire < now then LookupResult.invalid
      else ⟨r.retransmitter, r.interface, r.cost, r.seqnum⟩

/-- The effect of one `AddPath` on the entry stored for its own destination,
factored out of `FlameRtable.AddPath`: the argument is the previously stored
entry (if any), the result the entry stored afterwards. -/
def routeUpdate (L now : Nat) (retransmitter : Mac48Address)
    (interface cost seqnum : Nat) : Option Route → Route
  | none => ⟨retransmitter, interface, cost, now + L, seqnum⟩
  | some r =>
      if r.seqnum < seqnum then
        ⟨retransmitter, interface, cost, now + L, seqnum⟩
      else if seqnum = r.seqnum then
        if cost < r.cost then
          ⟨retransmitter, interface, cost, now + L, seqnum⟩
        else ⟨r.retransmitter, r.interface, r.cost, now + L, r.seqnum⟩
      else r

theorem FlameRtable.AddPath_lifetime (s : FlameRtable) (now : Nat)
    (D R : Mac48Address) (I C S : Nat) :
    (s.AddPath now D R I C S).m_lifetime = s.m_lifetime := by
  unfold FlameRtable.AddPath
  rcases s.m_routes D with _ | r
  · rfl
  · simp only
    split_ifs <;> rfl

theorem FlameRtable.AddPath_at (s : FlameRtable) (now : Nat)
    (D R : Mac48Address) (I C S : Nat) :
    (s.AddPath now D R I C S).m_routes D =
      some (routeUpdate s.m_lifetime now R I C S (s.m_routes D)) := by
  unfold FlameRtable.AddPath routeUpdate
  rcases h : s.m_routes D with _ | r
  · simp
  · simp only
    split_ifs <;> simp [h]

theorem FlameRtable.AddPath_other (s : FlameRtable) (now : Nat)
    (D R : Mac48Address) (I C S : Nat) (d : Mac48Address) (hd : d ≠ D) :
    (s.AddPath now D R I C S).m_routes d = s.m_routes d := by
  unfold FlameRtable.AddPath
  rcases s.m_routes D with _ | r
  · simp [hd]
  · simp only
    split_ifs <;> simp [hd]

/-- C1: an `AddPath` carrying a strictly higher sequence number than the
stored entry replaces every stored field, regardless of the relative costs,
and a `Lookup` before expiry returns the new fields. -/
theorem FlameRtable.addPath_fresher_seq_replaces
    (s : FlameRtable) (t now : Nat) (D R2 : Mac48Address) (I2 C2 S2 : Nat)
    (e : Route) (he : s.m_routes D = some e) (hq : e.seqnum < S2)
    (hnow : now ≤ t + s.m_lifetime) :
    (s.AddPath t D R2 I2 C2 S2).Lookup now D = ⟨R2, I2, C2, S2⟩ := by
  simp only [FlameRtable.AddPath, he, hq, if_true, FlameRtable.Lookup,
    if_pos rfl]
  simp [Nat.not_lt.mpr hnow]

/-- Witness for C1 at the spec's own example: stored cost 5, sequence 3;
the candidate with cost 20 and sequence 4 wins. -/
theorem FlameRtable.addPath_fresher_seq_replaces_w :
    (FlameRtable.AddPath
        ⟨10, fun d => if d = 5 then some ⟨2, 1, 5, 10, 3⟩ else none⟩
        4 5 7 2 20 4).Lookup 9 5 = ⟨7, 2, 20, 4⟩ :=
  FlameRtable.addPath_fresher_seq_replaces _ 4 9 5 7 2 20 4
    ⟨2, 1, 5, 10, 3⟩ rfl (by decide) (by decide)

/-- C2: round trip.  With no prior entry for the destination, an `AddPath`
followed by a `Lookup` before the lifetime has elapsed returns exactly the
stored fields, for every representable cost (uint8), sequence number
(uint16), interface (uint32) and address (48-bit): no truncation, no
reordering. -/
theorem FlameRtable.addPath_lookup_roundtrip
    (s : FlameRtable) (t now : Nat) (D R : Mac48Address) (I C S : Nat)
    (hD : D < 2 ^ 48) (hR : R < 2 ^ 48) (hI : I < 2 ^ 32) (hC : C < 2 ^ 8)
    (hS : S < 2 ^ 16)
    (hnone : s.m_routes D = none) (hnow : now ≤ t + s.m_lifetime) :
    (s.AddPath t D R I C S).Lookup now D = ⟨R, I, C, S⟩ := by
  simp only [FlameRtable.AddPath, hnone, FlameRtable.Lookup, if_pos rfl]
  simp [Nat.not_lt.mpr hnow]

/-- Witness for C2 on an empty table. -/
theorem FlameRtable.addPath_lookup_roundtrip_w :
    (FlameRtable.AddPath ⟨10, fun _ => none⟩ 3 5 7 2 20 4).Lookup 13 5 =
      ⟨7, 2, 20, 4⟩ :=
  FlameRtable.addPath_lookup_roundtrip _ 3 13 5 7 2 20 4
    (by decide) (by decide) (by decide) (by decide) (by decide) rfl
    (by decide)

/-- C4: an `AddPath` carrying a strictly lower (stale) sequence number than
the stored entry is ignored entirely: the whole table state, the stored
fields and the expiration timestamp included, is unchanged. -/
theorem FlameRtable.addPath_stale_seq_noop
    (s : FlameRtable) (t : Nat) (D R2 : Mac48Address) (I2 C2 S2 : Nat)
    (e : Route) (he : s.m_routes D = some e) (hq : S2 < e.seqnum) :
    s.AddPath t D R2 I2 C2 S2 = s := by
  simp only [FlameRtable.AddPath, he]
  rw [if_neg (by omega), if_neg (by omega)]

/-- Witness for C4: stored sequence 7, candidate sequence 6 is dropped. -/
theorem FlameRtable.addPath_stale_seq_noop_w :
    FlameRtable.AddPath
        ⟨10, fun d => if d = 5 then some ⟨2, 1, 5, 10, 7⟩ else none⟩
        4 5 7 2 3 6 =
      ⟨10, fun d => if d = 5 then some ⟨2, 1, 5, 10, 7⟩ else none⟩ :=
  FlameRtable.addPath_stale_seq_noop _ 4 5 7 2 3 6
    ⟨2, 1, 5, 10, 7⟩ rfl (by decide)

/-- C5: an `AddPath` with the stored sequence number and a strictly worse
(higher) cost keeps the stored retransmitter, interface, cost and sequence
number, and only refreshes the expiration to now plus the lifetime. -/
theorem FlameRtable.addPath_equal_seq_worse_cost_refresh
    (s : FlameRtable) (t : Nat) (D R2 : Mac48Address) (I2 C2 : Nat)
    (e : Route) (he : s.m_routes D = some e) (hc : e.cost < C2) :
    (s.AddPath t D R2 I2 C2 e.seqnum).m_routes D =
      some ⟨e.retransmitter, e.interface, e.cost, t + s.m_lifetime,
        e.seqnum⟩ := by
  simp only [FlameRtable.AddPath, he]
  rw [if_neg (by omega), if_pos trivial, if_neg (by omega)]
  simp

/-- Witness for C5 at the spec's own example: stored cost 10, sequence 7;
candidate cost 15, sequence 7 refreshes the expiration only. -/
theorem FlameRtable.addPath_equal_seq_worse_cost_refresh_w :
    (FlameRtable.AddPath
        ⟨20, fun d => if d = 5 then some ⟨2, 1, 10, 30, 7⟩ else none⟩
        25 5 8 3 15 7).m_routes 5 = some ⟨2, 1, 10, 45, 7⟩ :=
  FlameRtable.addPath_equal_seq_worse_cost_refresh _ 25 5 8 3 15
    ⟨2, 1, 10, 30, 7⟩ rfl (by decide)

/-- C6: for a destination with no entry, `Lookup` returns the distinguished
invalid result: broadcast retransmitter, `INTERFACE_ANY`, cost `MAX_COST`,
sequence number 0.  `Lookup` is a total function of the state, the supplied
time and the destination: it never fails or throws. -/
theorem FlameRtable.lookup_unknown_invalid
    (s : FlameRtable) (now : Nat) (D : Mac48Address)
    (hnone : s.m_routes D = none) :
    s.Lookup now D =
      ⟨Mac48Address.broadcast, INTERFACE_ANY, MAX_COST, 0⟩ := by
  simp [FlameRtable.Lookup, hnone, LookupResult.invalid]

/-- Witness for C6 on an empty table. -/
theorem FlameRtable.lookup_unknown_invalid_w :
    (FlameRtable.Lookup ⟨10, fun _ => none⟩ 3 5) =
      ⟨Mac48Address.broadcast, INTERFACE_ANY, MAX_COST, 0⟩ :=
  FlameRtable.lookup_unknown_invalid _ 3 5 rfl

/-- C3: once the configured lifetime has elapsed after the last `AddPath`
for a destination, `Lookup` for it returns the invalid sentinel, even
though an entry for the destination is still physically stored.  The first
hypothesis says the entry present before that `AddPath`, if any, does not
outlive the refreshed expiration: this holds in every execution whose
supplied times are non-decreasing. -/
theorem FlameRtable.lookup_expired_invalid
    (s : FlameRtable) (t now : Nat) (D R : Mac48Address) (I C S : Nat)
    (hprev : ∀ e, s.m_routes D = some e → e.whenExpire ≤ t + s.m_lifetime)
    (hnow : t + s.m_lifetime < now) :
    (s.AddPath t D R I C S).Lookup now D = LookupResult.invalid ∧
      ((s.AddPath t D R I C S).m_routes D).isSome = true := by
  have hat := s.AddPath_at t D R I C S
  refine ⟨?_, by simp [hat]⟩
  simp only [FlameRtable.Lookup, hat]
  have hexp : (routeUpdate s.m_lifetime t R I C S (s.m_routes D)).whenExpire
      < now := by
    rcases h : s.m_routes D with _ | r
    · simpa [routeUpdate] using hnow
    · have := hprev r h
      simp only [routeUpdate]
      split_ifs <;> simp <;> omega
  simp [hexp]

/-- Witness for C3: after an `AddPath` at time 4 with lifetime 10, a lookup
at time 15 is invalid while the entry is still stored. -/
theorem FlameRtable.lookup_expired_invalid_w :
    (FlameRtable.AddPath ⟨10, fun _ => none⟩ 4 5 7 2 20 4).Lookup 15 5 =
        LookupResult.invalid ∧
      ((FlameRtable.AddPath ⟨10, fun _ => none⟩ 4 5 7 2 20
          4).m_routes 5).isSome = true :=
  FlameRtable.lookup_expired_invalid _ 4 15 5 7 2 20 4
    (fun e he => Option.noConfusion he) (by decide)

/-- Auxiliary congruence: two states holding, for the queried destination,
entries equal in every field except possibly a later expiration answer the
same `Lookup` before the earlier expiration. -/
theorem FlameRtable.lookup_congr (s1 s2 : FlameRtable) (D : Mac48Address)
    (e1 e2 : Route) (h1 : s1.m_routes D = some e1)
    (h2 : s2.m_routes D = some e2)
    (hr : e2.retransmitter = e1.retransmitter)
    (hi : e2.interface = e1.interface) (hc : e2.cost = e1.cost)
    (hs : e2.seqnum = e1.seqnum) (hle : e1.whenExpire ≤ e2.whenExpire)
    (now : Nat) (hnow : now ≤ e1.whenExpire) :
    s2.Lookup now D = s1.Lookup now D := by
  simp [FlameRtable.Lookup, h1, h2, Nat.not_lt.mpr hnow,
    Nat.not_lt.mpr (le_trans hnow hle), hr, hi, hc, hs]

/-- Repeating `routeUpdate` with identical arguments at a no-earlier time
keeps every stored field and only moves the expiration forward. -/
theorem routeUpdate_twice (L t1 t2 : Nat) (R : Mac48Address) (I C S : Nat)
    (o : Option Route) (h12 : t1 ≤ t2) :
    (routeUpdate L t2 R I C S (some (routeUpdate L t1 R I C S o))).retransmitter
        = (routeUpdate L t1 R I C S o).retransmitter ∧
      (routeUpdate L t2 R I C S (some (routeUpdate L t1 R I C S o))).interface
        = (routeUpdate L t1 R I C S o).interface ∧
      (routeUpdate L t2 R I C S (some (routeUpdate L t1 R I C S o))).cost
        = (routeUpdate L t1 R I C S o).cost ∧
      (routeUpdate L t2 R I C S (some (routeUpdate L t1 R I C S o))).seqnum
        = (routeUpdate L t1 R I C S o).seqnum ∧
      (routeUpdate L t1 R I C S o).whenExpire ≤
        (routeUpdate L t2 R I C S (some (routeUpdate L t1 R I C S o))).whenExpire := by
  rcases o with _ | r <;>
    · simp only [routeUpdate]
      split_ifs <;> refine ⟨?_, ?_, ?_, ?_, ?_⟩ <;>
        (try dsimp only at *) <;> omega

/-- C7: `AddPath` is idempotent for identical repeated input: after the
second of two identical calls (the second no earlier than the first) the
destination holds an entry with the same retransmitter, interface, cost and
sequence number as after the first, with an expiration no earlier; every
other destination is untouched; and any `Lookup` performed while the
first entry was still live returns the same result in both states.
`AddPath` is a total function: it never fails. -/
theorem FlameRtable.addPath_idem (s : FlameRtable) (t1 t2 : Nat)
    (D R : Mac48Address) (I C S : Nat) (h12 : t1 ≤ t2) :
    ∃ e1 e2 : Route,
      (s.AddPath t1 D R I C S).m_routes D = some e1 ∧
      ((s.AddPath t1 D R I C S).AddPath t2 D R I C S).m_routes D = some e2 ∧
      e2.retransmitter = e1.retransmitter ∧ e2.interface = e1.interface ∧
      e2.cost = e1.cost ∧ e2.seqnum = e1.seqnum ∧
      e1.whenExpire ≤ e2.whenExpire ∧
      (∀ d, d ≠ D →
        ((s.AddPath t1 D R I C S).AddPath t2 D R I C S).m_routes d =
          (s.AddPath t1 D R I C S).m_routes d) ∧
      ∀ now, now ≤ e1.whenExpire →
        ((s.AddPath t1 D R I C S).AddPath t2 D R I C S).Lookup now D =
          (s.AddPath t1 D R I C S).Lookup now D := by
  have h1 := s.AddPath_at t1 D R I C S
  have h2 := (s.AddPath t1 D R I C S).AddPath_at t2 D R I C S
  rw [h1, s.AddPath_lifetime t1 D R I C S] at h2
  obtain ⟨hr, hi, hc, hs, hle⟩ := routeUpdate_twice s.m_lifetime t1 t2 R I C S
    (s.m_routes D) h12
  exact ⟨_, _, h1, h2, hr, hi, hc, hs, hle,
    fun d hd => (s.AddPath t1 D R I C S).AddPath_other t2 D R I C S d hd,
    fun now hnow => FlameRtable.lookup_congr _ _ D _ _ h1 h2 hr hi hc hs hle
      now hnow⟩

/-- Witness for C7: the same call twice on an empty table, at times 3 and
then 8. -/
theorem FlameRtable.addPath_idem_w :
    ∃ e1 e2 : Route,
      (FlameRtable.AddPath ⟨10, fun _ => none⟩ 3 5 7 2 20 4).m_routes 5 =
          some e1 ∧
      ((FlameRtable.AddPath ⟨10, fun _ => none⟩ 3 5 7 2 20 4).AddPath
          8 5 7 2 20 4).m_routes 5 = some e2 ∧
      e2.retransmitter = e1.retransmitter ∧ e2.interface = e1.interface ∧
      e2.cost = e1.cost ∧ e2.seqnum = e1.seqnum ∧
      e1.whenExpire ≤ e2.whenExpire ∧
      (∀ d, d ≠ 5 →
        ((FlameRtable.AddPath ⟨10, fun _ => none⟩ 3 5 7 2 20 4).AddPath
            8 5 7 2 20 4).m_routes d =
          (FlameRtable.AddPath ⟨10, fun _ => none⟩ 3 5 7 2 20 4).m_routes d) ∧
      ∀ now, now ≤ e1.whenExpire →
        ((FlameRtable.AddPath ⟨10, fun _ => none⟩ 3 5 7 2 20 4).AddPath
            8 5 7 2 20 4).Lookup now 5 =
          (FlameRtable.AddPath ⟨10, fun _ => none⟩ 3 5 7 2 20 4).Lookup now 5 :=
  FlameRtable.addPath_idem ⟨10, fun _ => none⟩ 3 8 5 7 2 20 4 (by decide)

/-- Modelled from the spec: the operations are driven by the caller-supplied
`now`, not by a global simulator clock (spec section 5).  The wrapper takes
the ambient global clock value that the missing implementation could in
principle have consulted and, per the spec, ignores it. -/
def FlameRtable.AddPathAt (globalClock : Nat) (s : FlameRtable) (now : Nat)
    (destination retransmitter : Mac48Address)
    (interface cost seqnum : Nat) : FlameRtable :=
  s.AddPath now destination retransmitter interface cost seqnum

/-- Modelled from the spec: `Lookup` likewise uses only the caller-supplied
`now`, ignoring the ambient global clock. -/
def FlameRtable.LookupAt (globalClock : Nat) (s : FlameRtable) (now : Nat)
    (destination : Mac48Address) : LookupResult :=
  s.Lookup now destination

/-- C8: neither operation reads the ambient global clock: the successor
state of `AddPath` and the result of `Lookup` are invariant under changing
it, hence each operation is a function of the table state, its explicit
arguments and the caller-supplied `now` alone, and two runs with the same
state, arguments and `now` produce identical results and successor
states. -/
theorem FlameRtable.clock_independent (g1 g2 : Nat) (s : FlameRtable)
    (now : Nat) (D R : Mac48Address) (I C S : Nat) :
    FlameRtable.AddPathAt g1 s now D R I C S =
        FlameRtable.AddPathAt g2 s now D R I C S ∧
      FlameRtable.LookupAt g1 s now D = FlameRtable.LookupAt g2 s now D :=
  ⟨rfl, rfl⟩

/-- C10: every cost representable in the `uint8_t` parameter of `AddPath`
satisfies `cost ≤ MAX_COST` (so the out-of-range programmer-error check can
never fire at the public interface), and `AddPath` preserves the invariant
that every stored entry's cost is at most `MAX_COST`. -/
theorem FlameRtable.cost_le_max_cost (c : Nat) (hc : c < 2 ^ 8)
    (s : FlameRtable) (t : Nat) (D R : Mac48Address) (I S : Nat)
    (d : Mac48Address)
    (hinv : ∀ e, s.m_routes d = some e → e.cost ≤ MAX_COST) :
    c ≤ MAX_COST ∧
      ∀ e, (s.AddPath t D R I c S).m_routes d = some e →
        e.cost ≤ MAX_COST := by
  refine ⟨by simp only [MAX_COST]; omega, ?_⟩
  intro e he
  by_cases hd : d = D
  · subst hd
    rw [s.AddPath_at t d R I c S] at he
    obtain rfl := (Option.some.inj he).symm
    rcases h : s.m_routes d with _ | r
    · simpa [routeUpdate, MAX_COST] using by omega
    · have := hinv r h
      simp only [routeUpdate]
      split_ifs <;> simp only [MAX_COST] at * <;> omega
  · rw [s.AddPath_other t D R I c S d hd] at he
    exact hinv e he

/-- Witness for C10: cost 200 inserted into an empty table. -/
theorem FlameRtable.cost_le_max_cost_w :
    (200 : Nat) ≤ MAX_COST ∧
      ∀ e, (FlameRtable.AddPath ⟨10, fun _ => none⟩ 0 5 7 2 200
          4).m_routes 5 = some e → e.cost ≤ MAX_COST :=
  FlameRtable.cost_le_max_cost 200 (by decide) ⟨10, fun _ => none⟩ 0 5 7 2 4
    5 (fun e he => Option.noConfusion he)

/-- Modelled from the spec: a variant of `Lookup` that lazily evicts the
queried destination's entry when it has expired, which spec section 4.1
allows as an implementation choice.  It returns the result together with
the successor state. -/
def FlameRtable.LookupEvict (s : FlameRtable) (now : Nat)
    (destination : Mac48Address) : LookupResult × FlameRtable :=
  match s.m_routes destination with
  | none => (LookupResult.invalid, s)
  | some r =>
      if r.whenExpire < now then
        (LookupResult.invalid,
          ⟨s.m_lifetime,
            fun d => if d = destination then none else s.m_routes d⟩)
      else (⟨r.retransmitter, r.interface, r.cost, r.seqnum⟩, s)

/-- One call of a client trace: an `AddPath` or a `Lookup`, each carrying
the caller-supplied time. -/
inductive Op where
  | add : Nat → Mac48Address → Mac48Address → Nat → Nat → Nat → Op
  | query : Nat → Mac48Address → Op
deriving DecidableEq, Repr

/-- Run a trace with the side-effect-free `Lookup`, collecting the results
of the `Lookup` calls. -/
def FlameRtable.run (s : FlameRtable) : List Op → List LookupResult
  | [] => []
  | Op.add t d r i c q :: ops => (s.AddPath t d r i c q).run ops
  | Op.query t d :: ops => s.Lookup t d :: s.run ops

/-- Run a trace with the lazily evicting `Lookup`. -/
def FlameRtable.runEvict (s : FlameRtable) : List Op → List LookupResult
  | [] => []
  | Op.add t d r i c q :: ops => (s.AddPath t d r i c q).runEvict ops
  | Op.query t d :: ops =>
      (s.LookupEvict t d).1 :: (s.LookupEvict t d).2.runEvict ops

/-- Trace discipline for the amended C9: the caller-supplied times are
non-decreasing (starting from `tmin`), and every `AddPath` carries a
sequence number strictly higher than the one stored for its destination, if
any, along the non-evicting run. -/
def FlameRtable.okTrace (s : FlameRtable) (tmin : Nat) : List Op → Bool
  | [] => true
  | Op.add t d r i c q :: ops =>
      (decide (tmin ≤ t) &&
          match s.m_routes d with
          | none => true
          | some e => decide (e.seqnum < q)) &&
        (s.AddPath t d r i c q).okTrace t ops
  | Op.query t d :: ops => decide (tmin ≤ t) && s.okTrace t ops

/-- Simulation relation between the non-evicting state `s1` and the
evicting state `s2` at time bound `t`: lifetimes agree, and every
destination either holds the same entry in both states, or has been evicted
from `s2` while holding an entry of `s1` that expired before `t`. -/
def FlameRtable.StateRel (t : Nat) (s1 s2 : FlameRtable) : Prop :=
  s2.m_lifetime = s1.m_lifetime ∧
    ∀ d, s2.m_routes d = s1.m_routes d ∨
      (s2.m_routes d = none ∧
        ∃ r, s1.m_routes d = some r ∧ r.whenExpire < t)

theorem FlameRtable.StateRel.mono {t u : Nat} {s1 s2 : FlameRtable}
    (h : FlameRtable.StateRel t s1 s2) (htu : t ≤ u) :
    FlameRtable.StateRel u s1 s2 := by
  refine ⟨h.1, fun d => ?_⟩
  rcases h.2 d with h2 | ⟨h2, r, hr, hexp⟩
  · exact Or.inl h2
  · exact Or.inr ⟨h2, r, hr, lt_of_lt_of_le hexp htu⟩

theorem FlameRtable.StateRel.addPath {t u : Nat} {s1 s2 : FlameRtable}
    (h : FlameRtable.StateRel t s1 s2) (htu : t ≤ u)
    (d0 r : Mac48Address) (i c q : Nat)
    (hq : ∀ e, s1.m_routes d0 = some e → e.seqnum < q) :
    FlameRtable.StateRel u (s1.AddPath u d0 r i c q)
      (s2.AddPath u d0 r i c q) := by
  obtain ⟨hL, hR⟩ := h
  refine ⟨by rw [FlameRtable.AddPath_lifetime, FlameRtable.AddPath_lifetime,
    hL], fun d => ?_⟩
  by_cases hd : d = d0
  · subst hd
    rw [FlameRtable.AddPath_at, FlameRtable.AddPath_at, hL]
    rcases hR d with heq | ⟨hnone, e, he, hexp⟩
    · rw [heq]
      exact Or.inl rfl
    · rw [hnone, he]
      exact Or.inl (by simp [routeUpdate, hq e he])
  · rw [FlameRtable.AddPath_other _ _ _ _ _ _ _ _ hd,
      FlameRtable.AddPath_other _ _ _ _ _ _ _ _ hd]
    rcases hR d with heq | ⟨hnone, e, he, hexp⟩
    · exact Or.inl heq
    · exact Or.inr ⟨hnone, e, he, lt_of_lt_of_le hexp htu⟩

theorem FlameRtable.StateRel.lookupStep {t u : Nat} {s1 s2 : FlameRtable}
    (h : FlameRtable.StateRel t s1 s2) (htu : t ≤ u) (d0 : Mac48Address) :
    (s2.LookupEvict u d0).1 = s1.Lookup u d0 ∧
      FlameRtable.StateRel u s1 (s2.LookupEvict u d0).2 := by
  rcases h.2 d0 with heq | ⟨hnone, e, he, hexp⟩
  · rcases h1 : s1.m_routes d0 with _ | r
    · rw [h1] at heq
      constructor
      · simp [FlameRtable.LookupEvict, FlameRtable.Lookup, heq, h1]
      · simp only [FlameRtable.LookupEvict, heq]
        exact h.mono htu
    · rw [h1] at heq
      by_cases hu : r.whenExpire < u
      · constructor
        · simp [FlameRtable.LookupEvict, FlameRtable.Lookup, heq, h1, hu]
        · simp only [FlameRtable.LookupEvict, heq, if_pos hu]
          refine ⟨h.1, fun d => ?_⟩
          by_cases hd : d = d0
          · subst hd
            exact Or.inr ⟨by simp, r, h1, hu⟩
          · rcases (h.mono htu).2 d with h2 | ⟨h2, e, he, hexp⟩
            · exact Or.inl (by simpa [hd] using h2)
            · exact Or.inr ⟨by simpa [hd] using h2, e, he, hexp⟩
      · constructor
        · simp [FlameRtable.LookupEvict, FlameRtable.Lookup, heq, h1, hu]
        · simp only [FlameRtable.LookupEvict, heq, if_neg hu]
          exact h.mono htu
  · constructor
    · simp [FlameRtable.LookupEvict, FlameRtable.Lookup, hnone, he,
        lt_of_lt_of_le hexp htu]
    · simp only [FlameRtable.LookupEvict, hnone]
      exact h.mono htu

/-- Under the trace discipline `okTrace`, the non-evicting and the lazily
evicting implementations produce the same sequence of results from any pair
of states related by the simulation relation. -/
theorem FlameRtable.runs_agree (ops : List Op) :
    ∀ (t : Nat) (s1 s2 : FlameRtable), FlameRtable.StateRel t s1 s2 →
      s1.okTrace t ops = true → s1.run ops = s2.runEvict ops := by
  induction ops with
  | nil => intro t s1 s2 _ _; rfl
  | cons op ops ih =>
      intro t s1 s2 hrel hok
      cases op with
      | add u d r i c q =>
          simp only [FlameRtable.okTrace, Bool.and_eq_true,
            decide_eq_true_eq] at hok
          obtain ⟨⟨htu, hq⟩, hok⟩ := hok
          simp only [FlameRtable.run, FlameRtable.runEvict]
          refine ih u _ _ (hrel.addPath htu d r i c q ?_) hok
          intro e he
          rw [he] at hq
          simpa using hq
      | query u d =>
          simp only [FlameRtable.okTrace, Bool.and_eq_true,
            decide_eq_true_eq] at hok
          obtain ⟨htu, hok⟩ := hok
          obtain ⟨hres, hrel2⟩ := hrel.lookupStep htu d
          simp only [FlameRtable.run, FlameRtable.runEvict, hres]
          exact congrArg _ (ih u _ _ hrel2 hok)

/-- C9 counterexample: the claim as stated is false.  With lifetime 10:
add a path for destination 5 with sequence number 5 at time 0; look it up
at time 11 (expired: both variants answer the invalid sentinel, the lazy
variant also evicts); add a path with stale sequence number 3 at time 11
(ignored by the non-evicting variant, inserted afresh by the evicting one);
look up at time 12: the non-evicting variant answers the invalid sentinel,
the evicting variant answers the fresh route.  The supplied times are
non-decreasing. -/
theorem FlameRtable.lazy_evict_not_equivalent_cex :
    ¬ (FlameRtable.run ⟨10, fun _ => none⟩
          [Op.add 0 5 1 1 5 5, Op.query 11 5, Op.add 11 5 2 2 7 3,
            Op.query 12 5] =
        FlameRtable.runEvict ⟨10, fun _ => none⟩
          [Op.add 0 5 1 1 5 5, Op.query 11 5, Op.add 11 5 2 2 7 3,
            Op.query 12 5]) := by
  decide

/-- C9 (amended): the two implementations are observationally equivalent on
every trace whose times are non-decreasing and whose every `AddPath`
carries a sequence number strictly higher than the entry currently stored
for its destination, if any: at every step both produce identical
`LookupResult` values. -/
theorem FlameRtable.lazy_evict_equivalent (s : FlameRtable) (ops : List Op)
    (hok : s.okTrace 0 ops = true) : s.run ops = s.runEvict ops :=
  FlameRtable.runs_agree ops 0 s s ⟨rfl, fun d => Or.inl rfl⟩ hok

/-- Witness for the amended C9: a trace with two adds of increasing
sequence number and lookups before and after expiry. -/
theorem FlameRtable.lazy_evict_equivalent_w :
    FlameRtable.run ⟨10, fun _ => none⟩
        [Op.add 0 5 1 1 5 5, Op.query 3 5, Op.add 4 5 2 2 7 6,
          Op.query 20 5] =
      FlameRtable.runEvict ⟨10, fun _ => none⟩
        [Op.add 0 5 1 1 5 5, Op.query 3 5, Op.add 4 5 2 2 7 6,
          Op.query 20 5] :=
  FlameRtable.lazy_evict_equivalent ⟨10, fun _ => none⟩
    [Op.add 0 5 1 1 5 5, Op.query 3 5, Op.add 4 5 2 2 7 6, Op.query 20 5]
    (by decide)
